import Mathlib

/-
Shallow embedding of the coordination core of flyitalyadsb/mlat-server
(src/mlat/tracker.py and src/mlat/server/coordinator.py).

Conventions of the embedding:
* Receivers are referred to by their uid (ℕ); aircraft objects live in a
  heap `objs : ℕ → TrackedAircraft` addressed by an allocation counter
  `next`, and the registry `aircraft` is the Python dict `icao -> object`,
  kept as an insertion-ordered association list `List (ℕ × ℕ)` from icao to
  heap address.  This separates object identity from the icao key exactly as
  CPython does (a deleted registry entry does not destroy the object).
* Python floats are modelled as ℚ; float literals 0.1, 1.5, 2.25, 0.8 ...
  appear as the rationals 1/10, 3/2, 9/4, 4/5.
* `random.sample`, `random.shuffle`, `random.random` and the float power
  `x ** 1.5` are modelled as oracles carried in `Env` (`sample`, `shuffle`,
  `rand`, `pow15`); theorems state the hypotheses on them they need.
* A Python exception is modelled by `Option`/outcome values
  (`incrementJumps` returns `none` on ZeroDivisionError).
-/

namespace MlatServer

/-- One entry of the per-pair sync state dumped by the clock tracker:
`[pairing sync count, offset, drift, bad_syncs, pairing.jumped]`
(coordinator.py lines 292-293). -/
structure PeerState where
  pair_sync_count : ℚ := 0
  offset : ℚ := 0
  drift : ℚ := 0
  bad_syncs : ℚ := 0
  jumped : ℚ := 0
deriving DecidableEq

/-- `mlat.server.coordinator.Receiver`: the fields of the Python class used
by the tracker graph, interest selection and clock-quality scoring.  The
four aircraft sets hold heap addresses of `TrackedAircraft` objects. -/
structure Receiver where
  tracking : Finset ℕ := ∅
  adsb_seen : Finset ℕ := ∅
  sync_interest : Finset ℕ := ∅
  mlat_interest : Finset ℕ := ∅
  bad_syncs : ℚ := 0
  last_rate_report : Option (List (ℕ × ℚ)) := none
  sync_peers : ℕ := 0
  recent_pair_jumps : ℕ := 0
  recent_clock_jumps : ℚ := 0
  last_clock_reset : ℚ := 0
  clock_reset_counter : ℕ := 0
deriving DecidableEq

/-- `mlat.tracker.TrackedAircraft`: the fields used by the claims.  The four
receiver sets hold receiver uids. -/
structure TrackedAircraft where
  icao : ℕ := 0
  allow_mlat : Bool := false
  tracking : Finset ℕ := ∅
  sync_interest : Finset ℕ := ∅
  adsb_seen : Finset ℕ := ∅
  mlat_interest : Finset ℕ := ∅
  last_adsb_time : ℚ := 0
  last_force_mlat : ℚ := 0
  force_mlat : Bool := false
  seen : ℚ := 0
  sync_dont_use : Bool := false
  sync_bad_percent : ℚ := 0
  altitude : Option ℚ := none
  do_mlat : Bool := false
deriving DecidableEq

/-- A `(rateproduct, receiver, aircraft, rate)` tuple of
`Tracker.update_interest` (tracker.py line 267).  `r1` is the peer
receiver's uid, `ac` the aircraft's heap address; `acIcao` carries the icao
because Python tuple comparison falls back to `TrackedAircraft.__lt__`,
which compares icaos. -/
structure RatePair where
  rp : ℚ
  r1 : ℕ
  acIcao : ℕ
  ac : ℕ
  rate : ℚ
deriving DecidableEq

/-- Configuration constants and randomness oracles.  `MAX_SYNC_AC` and
`MAX_SYNC_RATE` come from the config module (not part of the analysed
sources), so they stay abstract.  `FORCE_MLAT_INTERVAL` and
`NO_ADSB_MLAT_SECONDS` are the env-overridable tracker constants
(defaults 600 and 120). -/
structure Env where
  MAX_SYNC_AC : ℕ
  MAX_SYNC_RATE : ℚ
  FORCE_MLAT_INTERVAL : ℚ
  NO_ADSB_MLAT_SECONDS : ℚ
  sample : Finset ℕ → ℕ → Finset ℕ
  shuffle : List RatePair → List RatePair
  pow15 : ℚ → ℚ
  rand : ℕ → ℚ

/-- The mutable state reached from `mlat.tracker.Tracker`: the icao
registry, the aircraft object heap, the partition parameters, the throttled
global MLAT-wanted set, and the receiver objects (which the tracker mutates
through the bipartite edges). -/
structure Tracker where
  aircraft : List (ℕ × ℕ) := []
  objs : ℕ → TrackedAircraft := fun _ => {}
  next : ℕ := 0
  partition_id : ℕ := 0
  partition_count : ℕ := 1
  mlat_wanted : Finset ℕ := ∅
  mlat_wanted_ts : ℚ := 0
  recvs : ℕ → Receiver := fun _ => {}

/-- tracker.py lines 137-146, `Tracker.in_local_partition`: two rounds of
the 0x45d9f3b shift-xor-multiply hash masked to 32 bits, a final
shift-xor, then a modulus test against the partition id. -/
def in_local_partition (partition_id partition_count : ℕ) (icao : ℕ) : Bool :=
  if partition_count = 1 then true
  else
    let h1 := ((icao >>> 16) ^^^ icao) * 0x45d9f3b % 2 ^ 32
    let h2 := ((h1 >>> 16) ^^^ h1) * 0x45d9f3b % 2 ^ 32
    let h3 := (h2 >>> 16) ^^^ h2
    decide (h3 % partition_count = partition_id)

/-- Python `round(M / 4)` for a natural `M` (banker's rounding of a float
with fractional part 0, .25, .5 or .75), as used in
`Receiver.update_interest_sets` (coordinator.py line 86). -/
def round_quarter (M : ℕ) : ℕ :=
  if M % 4 = 3 then M / 4 + 1
  else if M % 4 = 2 ∧ M / 4 % 2 = 1 then M / 4 + 1
  else M / 4

/-- The effect on one aircraft's mirror set of the two diff loops of
`Receiver.update_interest_sets` (coordinator.py lines 92-109): the
receiver `r` is added when the aircraft `a` enters the new set and
discarded when it leaves it; aircraft outside the symmetric difference are
untouched. -/
def mirrorStep (r a : ℕ) (newS oldS cur : Finset ℕ) : Finset ℕ :=
  if a ∈ newS ∧ a ∉ oldS then insert r cur
  else if a ∈ oldS ∧ a ∉ newS then cur.erase r
  else cur

/-- coordinator.py lines 83-113, `Receiver.update_interest_sets`: quarantine
downsampling of `new_sync` when `bad_syncs > 2`, emptying of `new_mlat`
when `bad_syncs > 0`, then the six diff loops that keep the aircraft
mirror sets in step, and finally the assignment of the three receiver
sets. -/
def update_interest_sets (env : Env) (r : ℕ)
    (new_sync0 new_mlat0 new_adsb : Finset ℕ) (st : Tracker) : Tracker :=
  let rc := st.recvs r
  let new_sync :=
    if 2 < rc.bad_syncs ∧ (env.MAX_SYNC_AC : ℚ) / 4 < (new_sync0.card : ℚ) then
      env.sample new_sync0 (round_quarter env.MAX_SYNC_AC)
    else new_sync0
  let new_mlat := if 0 < rc.bad_syncs then (∅ : Finset ℕ) else new_mlat0
  { st with
    objs := fun a =>
      let ac := st.objs a
      { ac with
        adsb_seen := mirrorStep r a new_adsb rc.adsb_seen ac.adsb_seen,
        sync_interest := mirrorStep r a new_sync rc.sync_interest ac.sync_interest,
        mlat_interest := mirrorStep r a new_mlat rc.mlat_interest ac.mlat_interest },
    recvs := Function.update st.recvs r
      { rc with
        adsb_seen := new_adsb,
        sync_interest := new_sync,
        mlat_interest := new_mlat } }

/-- The body of the loop of `Tracker.add` (tracker.py lines 150-157) for a
single icao: get-or-create the aircraft (a fresh object is allocated at
heap address `next` with `allow_mlat` from the partition filter and
`last_force_mlat` set from the randomized initializer of
`TrackedAircraft.__init__`), then add the tracking edge in both
directions and stamp `seen`. -/
def addOne (env : Env) (r : ℕ) (now : ℚ) (st : Tracker) (icao : ℕ) : Tracker :=
  match st.aircraft.lookup icao with
  | some oid =>
    let ac := st.objs oid
    { st with
      objs := Function.update st.objs oid
        { ac with tracking := insert r ac.tracking, seen := now },
      recvs := Function.update st.recvs r
        (let rc := st.recvs r
         { rc with tracking := insert oid rc.tracking }) }
  | none =>
    let oid := st.next
    let ac : TrackedAircraft :=
      { icao := icao,
        allow_mlat := in_local_partition st.partition_id st.partition_count icao,
        tracking := {r},
        last_force_mlat := now - env.FORCE_MLAT_INTERVAL * env.rand icao,
        seen := now }
    { st with
      aircraft := st.aircraft ++ [(icao, oid)],
      objs := Function.update st.objs oid ac,
      next := st.next + 1,
      recvs := Function.update st.recvs r
        (let rc := st.recvs r
         { rc with tracking := insert oid rc.tracking }) }

/-- tracker.py lines 148-157, `Tracker.add`. -/
def add (env : Env) (r : ℕ) (icaos : List ℕ) (now : ℚ) (st : Tracker) : Tracker :=
  icaos.foldl (addOne env r now) st

/-- The body of the loop of `Tracker.remove` (tracker.py lines 160-168) for
a single icao: skip unknown icaos, discard the tracking edge in both
directions, and delete the registry entry when the aircraft's tracking
set empties. -/
def removeOne (r : ℕ) (st : Tracker) (icao : ℕ) : Tracker :=
  match st.aircraft.lookup icao with
  | none => st
  | some oid =>
    let ac := st.objs oid
    let ac' := { ac with tracking := ac.tracking.erase r }
    let st' :=
      { st with
        objs := Function.update st.objs oid ac',
        recvs := Function.update st.recvs r
          (let rc := st.recvs r
           { rc with tracking := rc.tracking.erase oid }) }
    if ac'.tracking = ∅ then
      { st' with aircraft := st'.aircraft.filter (fun p => p.1 != icao) }
    else st'

/-- tracker.py lines 159-168, `Tracker.remove`. -/
def remove (r : ℕ) (icaos : List ℕ) (st : Tracker) : Tracker :=
  icaos.foldl (removeOne r) st

/-- tracker.py lines 170-182, `Tracker.remove_all`: for every aircraft in
`receiver.tracking`, discard the receiver from all four edge sets and
delete the registry entry (keyed by the aircraft's icao) when the
tracking set empties; finally clear the receiver's own four sets.  The
per-aircraft updates are independent (the tracked objects are distinct),
so the loop is rendered as a simultaneous update. -/
def remove_all (r : ℕ) (st : Tracker) : Tracker :=
  let tr := (st.recvs r).tracking
  let dying := tr.filter (fun a => (st.objs a).tracking.erase r = ∅)
  let dyingIcaos := dying.image (fun a => (st.objs a).icao)
  let rc := st.recvs r
  { st with
    objs := fun a =>
      if a ∈ tr then
        let ac := st.objs a
        { ac with
          tracking := ac.tracking.erase r,
          sync_interest := ac.sync_interest.erase r,
          adsb_seen := ac.adsb_seen.erase r,
          mlat_interest := ac.mlat_interest.erase r }
      else st.objs a,
    aircraft := st.aircraft.filter (fun p => !decide (p.1 ∈ dyingIcaos)),
    recvs := Function.update st.recvs r
      { rc with tracking := ∅, adsb_seen := ∅, sync_interest := ∅, mlat_interest := ∅ } }

/-- The bipartite symmetry invariant of the spec: for each of the four
relations, aircraft `a` is in receiver `r`'s set iff `r` is in `a`'s
mirror set. -/
def Symm (st : Tracker) : Prop :=
  ∀ r a,
    (a ∈ (st.recvs r).tracking ↔ r ∈ (st.objs a).tracking) ∧
    (a ∈ (st.recvs r).sync_interest ↔ r ∈ (st.objs a).sync_interest) ∧
    (a ∈ (st.recvs r).mlat_interest ↔ r ∈ (st.objs a).mlat_interest) ∧
    (a ∈ (st.recvs r).adsb_seen ↔ r ∈ (st.objs a).adsb_seen)

/-- Well-formedness of the heap bookkeeping: receivers and the registry
only reference allocated objects, and unallocated heap slots are blank.
These facts hold of every state the Python process can reach (objects are
created only by `Tracker.add`). -/
def WF (st : Tracker) : Prop :=
  (∀ r a, (a ∈ (st.recvs r).tracking ∨ a ∈ (st.recvs r).sync_interest ∨
           a ∈ (st.recvs r).mlat_interest ∨ a ∈ (st.recvs r).adsb_seen) → a < st.next) ∧
  (∀ p ∈ st.aircraft, p.2 < st.next) ∧
  (∀ a, st.next ≤ a → st.objs a = {})

/-- The per-aircraft body of the throttled MLAT-wanted refresh
(tracker.py lines 195-210): the force-MLAT hysteresis updates on
`force_mlat`/`last_force_mlat`, then the MLAT-wanted test.  Returns the
updated aircraft and whether it was added to `mlat_wanted`.  Note that
`since_force` is computed once from the pre-update `last_force_mlat` and
the wanted test reads that variable, not the flag. -/
def refresh_one (env : Env) (now : ℚ) (ac : TrackedAircraft) : TrackedAircraft × Bool :=
  let since_force := now - ac.last_force_mlat
  let ac :=
    if ¬ac.force_mlat = true ∧ env.FORCE_MLAT_INTERVAL - 15 < since_force then
      { ac with force_mlat := true }
    else ac
  let ac :=
    if env.FORCE_MLAT_INTERVAL + 15 < since_force then
      { ac with last_force_mlat := now + env.rand ac.icao, force_mlat := false }
    else ac
  if 2 ≤ ac.tracking.card ∧ ac.allow_mlat = true ∧
      (env.NO_ADSB_MLAT_SECONDS < now - ac.last_adsb_time ∨
       10 < ac.sync_bad_percent ∨
       (env.FORCE_MLAT_INTERVAL - 15 < since_force ∧ since_force < env.FORCE_MLAT_INTERVAL)) then
    ({ ac with do_mlat := true }, true)
  else
    ({ ac with do_mlat := false }, false)

/-- One step of the refresh loop: apply `refresh_one` to the aircraft at
heap address `oid`, store it back, and extend the pending wanted set. -/
def refresh_step (env : Env) (now : ℚ) (acc : Tracker × Finset ℕ) (oid : ℕ) :
    Tracker × Finset ℕ :=
  let res := refresh_one env now (acc.1.objs oid)
  ({ acc.1 with objs := Function.update acc.1.objs oid res.1 },
   if res.2 then insert oid acc.2 else acc.2)

/-- tracker.py lines 192-212: when more than 0.1 s have passed since the
last refresh, rebuild `mlat_wanted` from scratch by running
`refresh_one` over every registered aircraft (in registry order) and
stamp `mlat_wanted_ts`. -/
def refresh_wanted (env : Env) (now : ℚ) (st : Tracker) : Tracker :=
  if 1 / 10 < now - st.mlat_wanted_ts then
    let fin := (st.aircraft.map Prod.snd).foldl (refresh_step env now) (st, ∅)
    { fin.1 with mlat_wanted := fin.2, mlat_wanted_ts := now }
  else st

/-- Accumulator of the rate-report loop of `Tracker.update_interest`
(tracker.py lines 229-269): the mutated tracker (only `seen` stamps),
the `new_adsb` set, the per-aircraft rate-pair map with its key set, and
the flat rate-pair list. -/
structure RateCtx where
  st : Tracker
  new_adsb : Finset ℕ := ∅
  pairMap : ℕ → List RatePair := fun _ => []
  pairKeys : Finset ℕ := ∅
  flat : List RatePair := []

/-- One iteration of the rate-report loop (tracker.py lines 232-269) for a
report entry `(icao, rate)`: skip icaos absent from the registry, stamp
`seen`, record the aircraft in `new_adsb` and in the pair map, compute
the altitude factor, and build a rate pair against every other receiver
tracking the aircraft (peer rate defaults to 0.8 without a rate report;
pairs with rate product below 0.01 are discarded). -/
def rateEntry (env : Env) (r : ℕ) (now : ℚ) (ctx : RateCtx) (e : ℕ × ℚ) : RateCtx :=
  match ctx.st.aircraft.lookup e.1 with
  | none => ctx
  | some oid =>
    let ac := ctx.st.objs oid
    let st := { ctx.st with objs := Function.update ctx.st.objs oid { ac with seen := now } }
    let altFactor : Option ℚ :=
      match ac.altitude with
      | some alt => if 0 < alt then some (1 + env.pow15 (alt / 20000)) else none
      | none => none
    let pairs := (ac.tracking.sort (· ≤ ·)).foldl
      (fun (l : List RatePair) r1 =>
        if r1 = r then l
        else
          let rate1 : ℚ :=
            match (st.recvs r1).last_rate_report with
            | none => 4 / 5
            | some rep => (rep.lookup e.1).getD 0
          let rp : ℚ := e.2 * rate1 / (9 / 4)
          let rp : ℚ :=
            match altFactor with
            | some f => rp * f
            | none => rp
          if rp < (1 / 100 : ℚ) then l else l ++ [⟨rp, r1, ac.icao, oid, e.2⟩])
      []
    { st := st,
      new_adsb := insert oid ctx.new_adsb,
      pairMap := Function.update ctx.pairMap oid pairs,
      pairKeys := insert oid ctx.pairKeys,
      flat := ctx.flat ++ pairs }

/-- The whole rate-report loop. -/
def mk_ratepairs (env : Env) (r : ℕ) (now : ℚ) (report : List (ℕ × ℚ)) (st : Tracker) :
    RateCtx :=
  report.foldl (rateEntry env r now) { st := st }

/-- Strict descending comparison on rate-pair tuples: Python compares
`(rp, r1, ac, rate)` lexicographically, receivers by uid and aircraft by
icao. -/
def rpGT (x y : RatePair) : Bool :=
  decide (y.rp < x.rp) ||
    (x.rp == y.rp &&
      (decide (y.r1 < x.r1) ||
        (x.r1 == y.r1 &&
          (decide (y.acIcao < x.acIcao) ||
            (x.acIcao == y.acIcao && decide (y.rate < x.rate))))))

/-- Descending insertion sort implementing
`ratepair_list.sort(reverse=True)` (tracker.py line 271); all tuples in a
run are distinct (one per receiver/aircraft pair), so any comparison sort
computes the same list. -/
def insDesc (p : RatePair) : List RatePair → List RatePair
  | [] => [p]
  | q :: rest => if rpGT p q then p :: q :: rest else q :: insDesc p rest

def sortDesc (l : List RatePair) : List RatePair :=
  l.foldr insDesc []

/-- The mutable state of the two selection rounds (tracker.py
lines 277-279): the per-peer rate-product totals, the selected sync set,
and the cumulative rate. -/
structure SelSt where
  ntotal : ℕ → ℚ
  new_sync : Finset ℕ
  total_rate : ℚ

/-- `ntotal[r2] = ntotal.get(r2, 0.0) + rp2` over an aircraft's rate-pair
list (tracker.py lines 298-299 and 316-317). -/
def bumpNtotal (pairs : List RatePair) (nt : ℕ → ℚ) : ℕ → ℚ :=
  pairs.foldl (fun nt q => Function.update nt q.r1 (nt q.r1 + q.rp)) nt

/-- One selection round (tracker.py lines 282-299 for round 1 with
`skipSub = true` and threshold 0.3, lines 302-317 for round 2 with
`skipSub = false` and threshold 3.5): skip already-selected aircraft (and,
in round 1, aircraft with `sync_dont_use`), break once `total_rate`
exceeds `MAX_SYNC_RATE`, and select when the peer's `ntotal` is below the
threshold. -/
def selRound (env : Env) (pairMap : ℕ → List RatePair) (objs : ℕ → TrackedAircraft)
    (skipSub : Bool) (thresh : ℚ) : List RatePair → SelSt → SelSt
  | [], s => s
  | p :: rest, s =>
    if p.ac ∈ s.new_sync then selRound env pairMap objs skipSub thresh rest s
    else if skipSub = true ∧ (objs p.ac).sync_dont_use = true then
      selRound env pairMap objs skipSub thresh rest s
    else if env.MAX_SYNC_RATE < s.total_rate then s
    else if s.ntotal p.r1 < thresh then
      selRound env pairMap objs skipSub thresh rest
        { ntotal := bumpNtotal (pairMap p.ac) s.ntotal,
          new_sync := insert p.ac s.new_sync,
          total_rate := s.total_rate + p.rate }
    else selRound env pairMap objs skipSub thresh rest s

/-- tracker.py lines 184-333, `Tracker.update_interest`: refresh the
throttled MLAT-wanted set, compute `new_mlat` as the intersection of the
receiver's tracking set with it, then either the legacy branch (no rate
report: sync interest is the whole tracking set, randomly downsampled to
`MAX_SYNC_AC`) or the rate-aware branch (rate-pair construction, the
descending sort, the shuffled top half, the two selection rounds, and the
two random top-ups towards `MAX_SYNC_AC / 4`), and finally the commit
through `update_interest_sets`. -/
def update_interest (env : Env) (r : ℕ) (now : ℚ) (st0 : Tracker) : Tracker :=
  let st := refresh_wanted env now st0
  let new_mlat := (st.recvs r).tracking ∩ st.mlat_wanted
  match (st.recvs r).last_rate_report with
  | none =>
    let new_sync := (st.recvs r).tracking
    let new_sync :=
      if env.MAX_SYNC_AC < new_sync.card then env.sample new_sync env.MAX_SYNC_AC
      else new_sync
    update_interest_sets env r new_sync new_mlat ∅ st
  | some report =>
    let ctx := mk_ratepairs env r now report st
    let sorted := sortDesc ctx.flat
    let firstHalf := env.shuffle (sorted.take (sorted.length / 2))
    let s1 := selRound env ctx.pairMap ctx.st.objs true (3 / 10) firstHalf
      ⟨fun _ => 0, ∅, 0⟩
    let s2 := selRound env ctx.pairMap ctx.st.objs false (7 / 2) sorted s1
    let new_sync := s2.new_sync
    let new_sync :=
      if new_sync.card < env.MAX_SYNC_AC / 4 then
        let avail := ctx.pairKeys \ new_sync
        let ns1 := new_sync ∪ env.sample avail
          (min avail.card (env.MAX_SYNC_AC / 4 - new_sync.card))
        if ns1.card < env.MAX_SYNC_AC / 4 then
          let avail2 := (ctx.st.recvs r).tracking \ ns1
          ns1 ∪ env.sample avail2 (min avail2.card (env.MAX_SYNC_AC / 4 - ns1.card))
        else ns1
      else new_sync
    update_interest_sets env r new_sync new_mlat ctx.new_adsb ctx.st

/-- coordinator.py lines 125-131, `Receiver.clock_reset` (its effect on the
receiver record; the notification of the clock tracker and the throttled
logging are external effects). -/
def clock_reset (now : ℚ) (r : Receiver) : Receiver :=
  { r with last_clock_reset := now, clock_reset_counter := r.clock_reset_counter + 1 }

/-- coordinator.py lines 115-123, `Receiver.incrementJumps`: increment
`recent_pair_jumps`, then test `recent_pair_jumps / sync_peers > 0.2`.
When `sync_peers = 0` the Python division raises ZeroDivisionError,
modelled as `none` (the increment of `recent_pair_jumps` has already
happened on the object, but the call does not complete). -/
def incrementJumps (now : ℚ) (r : Receiver) : Option Receiver :=
  let r := { r with recent_pair_jumps := r.recent_pair_jumps + 1 }
  if r.sync_peers = 0 then none
  else if 1 / 5 < (r.recent_pair_jumps : ℚ) / (r.sync_peers : ℚ) then
    let r := { r with recent_clock_jumps := r.recent_clock_jumps + 1 }
    let r :=
      if 2 < r.recent_clock_jumps then { r with bad_syncs := r.bad_syncs + 2 / 5 }
      else r
    some (clock_reset now r)
  else some r

/-- The per-receiver body of the clock-quality scoring pass inside
`Coordinator._really_write_state` (coordinator.py lines 281-323): the
peer fold starting from `(bad_peers, num_peers) = (0, 10)`, the
`bad_syncs` update, the clamp to `[0, 6]`, and the decay of
`recent_clock_jumps` / reset of `recent_pair_jumps` from the second
receiver loop of the same pass. -/
def scorer_receiver (r : Receiver) (peers : List PeerState) : Receiver :=
  let bn := peers.foldl
    (fun (p : ℕ × ℕ) s =>
      if 0 < s.bad_syncs then p
      else
        ((if (5 < s.pair_sync_count ∧ 3 / 2 < s.offset) ∨ 4 < s.offset then p.1 + 1
          else p.1),
         p.2 + 1))
    (0, 10)
  let bad_peers := bn.1
  let num_peers := bn.2
  let bs :=
    if 5 < bad_peers ∨ 1 / 10 < (bad_peers : ℚ) / (num_peers : ℚ) then
      r.bad_syncs + min 1 (2 * (bad_peers : ℚ) / (num_peers : ℚ))
    else r.bad_syncs - 1 / 10
  let bs := max 0 (min 6 bs)
  { r with
    bad_syncs := bs,
    recent_clock_jumps := max 0 (r.recent_clock_jumps - 1 / 2),
    recent_pair_jumps := 0 }

/-- coordinator.py lines 506-527, `Coordinator.forward_results`: the guard
discarding results with an invalid Kalman state and `dof < 1`, then the
fan-out loop that calls `report_mlat_position` on every receiver in the
contributing set, recording each receiver's own outcome; a raised
exception is caught and logged, so later receivers are still called and
the function itself always returns.  The value is the list of performed
calls paired with their outcomes. -/
def forward_results (kalman_valid : Bool) (dof : ℚ) (broadcast : List ℕ)
    (report : ℕ → Except Unit Unit) : List (ℕ × Except Unit Unit) :=
  if ¬kalman_valid = true ∧ dof < 1 then []
  else broadcast.map fun rcv => (rcv, report rcv)

/-- The mixing hash of `in_local_partition` as a standalone function (a
pure function of the icao alone). -/
def pHash (icao : ℕ) : ℕ :=
  let h1 := ((icao >>> 16) ^^^ icao) * 0x45d9f3b % 2 ^ 32
  let h2 := ((h1 >>> 16) ^^^ h1) * 0x45d9f3b % 2 ^ 32
  (h2 >>> 16) ^^^ h2

/-- A peer state is skipped by the scorer iff its `bad_syncs` entry is
positive (coordinator.py line 296). -/
def peerSkipped (s : PeerState) : Bool := decide (0 < s.bad_syncs)

/-- A non-skipped peer counts as a bad peer iff
`(pair_sync_count > 5 and offset > 1.5) or offset > 4`
(coordinator.py line 299). -/
def peerBad (s : PeerState) : Bool :=
  decide ((5 < s.pair_sync_count ∧ 3 / 2 < s.offset) ∨ 4 < s.offset)

/-- A deterministic stand-in for `random.sample`: the `k` smallest
elements.  It satisfies the sampling contract (`k` distinct elements of
the population whenever `k` does not exceed its size) and is used to
instantiate the sampling oracle in witnesses. -/
def sampleFirst (s : Finset ℕ) (k : ℕ) : Finset ℕ :=
  ((s.sort (· ≤ ·)).take k).toFinset

/- Concrete states and environments used by the closed theorems below. -/

/-- An environment with the default tracker constants and trivial
oracles. -/
def env0 : Env :=
  { MAX_SYNC_AC := 100, MAX_SYNC_RATE := 1000,
    FORCE_MLAT_INTERVAL := 600, NO_ADSB_MLAT_SECONDS := 120,
    sample := sampleFirst, shuffle := id, pow15 := fun _ => 0, rand := fun _ => 0 }

/-- An aircraft inside the claimed force window `[585, 615]` at `now = 610`
(with `last_force_mlat = 0`), tracked by two receivers, `allow_mlat`,
with fresh ADS-B and a clean sync record. -/
def acC2 : TrackedAircraft :=
  { icao := 1, allow_mlat := true, tracking := {0, 1}, last_adsb_time := 610,
    last_force_mlat := 0 }

/-- A receiver whose `sync_peers` counter is zero. -/
def rC10 : Receiver := { sync_peers := 0 }

/-- A receiver with five live sync peers and no recent pair jumps. -/
def rC10w : Receiver := { sync_peers := 5 }

/-- The result of `incrementJumps 0 rC10w`. -/
def rC10w' : Receiver := { sync_peers := 5, recent_pair_jumps := 1 }

/-- A receiver at the upper score clamp with two recent clock jumps. -/
def rC5 : Receiver := { bad_syncs := 6, sync_peers := 1, recent_clock_jumps := 2 }

/-- A small configuration with `MAX_SYNC_AC = 2`: the rate-aware selection
rounds are only bounded by `MAX_SYNC_RATE`, so three low-rate aircraft
already exceed the claimed cap. -/
def envC6 : Env :=
  { MAX_SYNC_AC := 2, MAX_SYNC_RATE := 100,
    FORCE_MLAT_INTERVAL := 600, NO_ADSB_MLAT_SECONDS := 120,
    sample := sampleFirst, shuffle := id, pow15 := fun _ => 0, rand := fun _ => 0 }

/-- An aircraft with icao `i` tracked by receivers 0 and 1. -/
def acC6 (i : ℕ) : TrackedAircraft := { icao := i, allow_mlat := true, tracking := {0, 1} }

/-- Receiver 0 tracks three aircraft and reports rate 1 for each; its peer
(receiver 1) tracks the same three aircraft without a rate report. -/
def stC6 : Tracker :=
  { aircraft := [(1, 1), (2, 2), (3, 3)],
    objs := fun a =>
      if a = 1 then acC6 1 else if a = 2 then acC6 2 else if a = 3 then acC6 3 else {},
    next := 4,
    recvs := fun r =>
      if r = 0 then
        { tracking := {1, 2, 3}, last_rate_report := some [(1, 1), (2, 1), (3, 1)] }
      else if r = 1 then { tracking := {1, 2, 3} } else {} }

/-- The rate pair produced for aircraft `i` in the `stC6` run: rate product
`1 * 0.8 / 2.25 = 16/45` against peer receiver 1. -/
def PC6 (i : ℕ) : RatePair := ⟨16 / 45, 1, i, i, 1⟩

/-- Heap contents of `stC6` after the first `k` rate-report entries
stamped `seen` (at `now = 0` the stamp is the identity on these
aircraft). -/
def objsC6one : ℕ → TrackedAircraft := Function.update stC6.objs 1 (acC6 1)

def objsC6two : ℕ → TrackedAircraft := Function.update objsC6one 2 (acC6 2)

def objsC6three : ℕ → TrackedAircraft := Function.update objsC6two 3 (acC6 3)

def pmC6one : ℕ → List RatePair :=
  Function.update (fun _ : ℕ => ([] : List RatePair)) 1 [PC6 1]

def pmC6two : ℕ → List RatePair := Function.update pmC6one 2 [PC6 2]

def pmC6three : ℕ → List RatePair := Function.update pmC6two 3 [PC6 3]

/-- The rate-pair context of the `stC6` run after the first report
entry. -/
def ctxC6one : RateCtx :=
  { st := { stC6 with objs := objsC6one }, new_adsb := {1},
    pairMap := pmC6one, pairKeys := {1}, flat := [PC6 1] }

/-- ... after the first two report entries. -/
def ctxC6two : RateCtx :=
  { st := { stC6 with objs := objsC6two }, new_adsb := insert 2 {1},
    pairMap := pmC6two, pairKeys := insert 2 {1}, flat := [PC6 1, PC6 2] }

/-- ... after all three report entries. -/
def ctxC6three : RateCtx :=
  { st := { stC6 with objs := objsC6three }, new_adsb := insert 3 (insert 2 {1}),
    pairMap := pmC6three, pairKeys := insert 3 (insert 2 {1}),
    flat := [PC6 1, PC6 2, PC6 3] }

/-- A legacy receiver (no rate report) tracking three aircraft, in a
configuration with `MAX_SYNC_AC = 2`. -/
def stC6w : Tracker :=
  { aircraft := [(1, 1), (2, 2), (3, 3)],
    objs := fun a =>
      if a = 1 then acC6 1 else if a = 2 then acC6 2 else if a = 3 then acC6 3 else {},
    next := 4,
    recvs := fun r =>
      if r = 0 then { tracking := {1, 2, 3} }
      else if r = 1 then { tracking := {1, 2, 3} } else {} }

/-- A clean receiver with one sync peer. -/
def rC5w : Receiver := { sync_peers := 1 }

/-- The result of `incrementJumps 0 rC5w`. -/
def rC5w' : Receiver :=
  { sync_peers := 1, recent_pair_jumps := 1, recent_clock_jumps := 1,
    clock_reset_counter := 1 }

/-- A symmetric state on which the dangling-mirror scenario is built:
receiver 9 tracks the aircraft at heap address 0 (icao 77); receiver 0
tracks nothing. -/
def stC1 : Tracker :=
  { aircraft := [(77, 0)],
    objs := fun a => if a = 0 then { icao := 77, tracking := {9} } else {},
    next := 1,
    recvs := fun r => if r = 9 then { tracking := {0} } else {} }

/-- A clean symmetric, well-formed state: receiver 0 tracks the aircraft at
heap address 0 (icao 7) and uses it for synchronization. -/
def stC1W : Tracker :=
  { aircraft := [(7, 0)],
    objs := fun a =>
      if a = 0 then { icao := 7, tracking := {0}, sync_interest := {0} } else {},
    next := 1,
    recvs := fun r => if r = 0 then { tracking := {0}, sync_interest := {0} } else {} }

/-- Observational equality of tracker states: same icao-to-aircraft map
(registry lookups composed with the object heap, i.e. all aircraft state
including the aircraft-side edge sets), same receiver objects, and same
global MLAT-wanted set.  The allocation counter and unreachable heap
slots (garbage objects) are not observable. -/
def ObsEq (st st' : Tracker) : Prop :=
  (∀ i, (st.aircraft.lookup i).map st.objs = (st'.aircraft.lookup i).map st'.objs) ∧
  st.recvs = st'.recvs ∧ st.mlat_wanted = st'.mlat_wanted

/-- Receiver 0 tracks the registered aircraft (heap address 0, icao 5):
`add 0 {5}; remove 0 {5}` then deletes it from the registry. -/
def stC7 : Tracker :=
  { aircraft := [(5, 0)],
    objs := fun a => if a = 0 then { icao := 5, tracking := {0} } else {},
    next := 1,
    recvs := fun r => if r = 0 then { tracking := {0} } else {} }

end MlatServer

namespace MlatServer

/- Helper lemmas. -/

theorem scorer_fold_count (peers : List PeerState) (b n : ℕ) :
    peers.foldl
      (fun (p : ℕ × ℕ) s =>
        if 0 < s.bad_syncs then p
        else
          ((if (5 < s.pair_sync_count ∧ 3 / 2 < s.offset) ∨ 4 < s.offset then p.1 + 1
            else p.1),
           p.2 + 1))
      (b, n)
    = (b + peers.countP (fun s => !peerSkipped s && peerBad s),
       n + peers.countP (fun s => !peerSkipped s)) := by
  induction peers generalizing b n with
  | nil => simp
  | cons s rest ih =>
    by_cases h1 : 0 < s.bad_syncs
    · simp [List.foldl_cons, h1, ih, List.countP_cons, peerSkipped, peerBad]
    · by_cases h2 : (5 < s.pair_sync_count ∧ 3 / 2 < s.offset) ∨ 4 < s.offset
      · simp only [List.foldl_cons, if_neg h1, if_pos h2, ih, List.countP_cons]
        simp [peerSkipped, peerBad, h1, h2]
        omega
      · simp only [List.foldl_cons, if_neg h1, if_neg h2, ih, List.countP_cons]
        simp [peerSkipped, peerBad, h1, h2]
        omega

/-- Claim C4: in each scorer pass, for every receiver, the peer count
starts at the prior 10, peer states with positive `bad_syncs` are
skipped, the remaining peers each increment `num_peers` and count as bad
exactly under `(pair_sync_count > 5 and offset > 1.5) or offset > 4`, and
`bad_syncs` is then increased by `min 1 (2*bad_peers/num_peers)` when
`bad_peers > 5` or `bad_peers/num_peers > 0.1` and decreased by 0.1
otherwise (the result being clamped into `[0, 6]` by the same pass). -/
theorem C4_scorer_pass (r : Receiver) (peers : List PeerState) :
    (scorer_receiver r peers).bad_syncs =
      max 0 (min 6
        (if 5 < peers.countP (fun s => !peerSkipped s && peerBad s) ∨
            (1 : ℚ) / 10 <
              (peers.countP (fun s => !peerSkipped s && peerBad s) : ℚ) /
                ((10 + peers.countP (fun s => !peerSkipped s) : ℕ) : ℚ) then
          r.bad_syncs +
            min 1 (2 * (peers.countP (fun s => !peerSkipped s && peerBad s) : ℚ) /
              ((10 + peers.countP (fun s => !peerSkipped s) : ℕ) : ℚ))
        else r.bad_syncs - 1 / 10)) := by
  show (scorer_receiver r peers).bad_syncs = _
  unfold scorer_receiver
  rw [scorer_fold_count]
  simp

theorem foldl_fix {α : Type _} {β : Type _} {γ : Type _} (f : β → α → β) (g : β → γ)
    (hf : ∀ b a, g (f b a) = g b) (l : List α) (b : β) : g (l.foldl f b) = g b := by
  induction l generalizing b with
  | nil => rfl
  | cons x xs ih => rw [List.foldl_cons, ih, hf]

theorem refresh_wanted_recvs (env : Env) (now : ℚ) (st : Tracker) :
    (refresh_wanted env now st).recvs = st.recvs := by
  unfold refresh_wanted
  split
  · exact foldl_fix (refresh_step env now) (fun acc => acc.1.recvs)
      (fun b a => rfl) _ _
  · rfl

theorem rateEntry_st_recvs (env : Env) (r : ℕ) (now : ℚ) (ctx : RateCtx) (e : ℕ × ℚ) :
    (rateEntry env r now ctx e).st.recvs = ctx.st.recvs := by
  unfold rateEntry; split <;> rfl

theorem rateEntry_st_mlat_wanted (env : Env) (r : ℕ) (now : ℚ) (ctx : RateCtx)
    (e : ℕ × ℚ) :
    (rateEntry env r now ctx e).st.mlat_wanted = ctx.st.mlat_wanted := by
  unfold rateEntry; split <;> rfl

theorem mk_ratepairs_st_recvs (env : Env) (r : ℕ) (now : ℚ) (report : List (ℕ × ℚ))
    (st : Tracker) : (mk_ratepairs env r now report st).st.recvs = st.recvs := by
  unfold mk_ratepairs
  exact foldl_fix _ (fun ctx => ctx.st.recvs)
    (fun b a => rateEntry_st_recvs env r now b a) report _

theorem mk_ratepairs_st_mlat_wanted (env : Env) (r : ℕ) (now : ℚ)
    (report : List (ℕ × ℚ)) (st : Tracker) :
    (mk_ratepairs env r now report st).st.mlat_wanted = st.mlat_wanted := by
  unfold mk_ratepairs
  exact foldl_fix _ (fun ctx => ctx.st.mlat_wanted)
    (fun b a => rateEntry_st_mlat_wanted env r now b a) report _

theorem uis_mlat_wanted (env : Env) (r : ℕ) (ns nm na : Finset ℕ) (st : Tracker) :
    (update_interest_sets env r ns nm na st).mlat_wanted = st.mlat_wanted := rfl

theorem uis_mlat_self (env : Env) (r : ℕ) (ns nm na : Finset ℕ) (st : Tracker) :
    ((update_interest_sets env r ns nm na st).recvs r).mlat_interest =
      if 0 < (st.recvs r).bad_syncs then (∅ : Finset ℕ) else nm := by
  unfold update_interest_sets
  dsimp only
  rw [Function.update_same]

theorem uis_sync_self (env : Env) (r : ℕ) (ns nm na : Finset ℕ) (st : Tracker) :
    ((update_interest_sets env r ns nm na st).recvs r).sync_interest =
      if 2 < (st.recvs r).bad_syncs ∧ (env.MAX_SYNC_AC : ℚ) / 4 < (ns.card : ℚ) then
        env.sample ns (round_quarter env.MAX_SYNC_AC)
      else ns := by
  unfold update_interest_sets
  dsimp only
  rw [Function.update_same]

/-- Claim C3: for every receiver, the committed per-receiver MLAT interest
set is the intersection of its tracking set with the (current) global
`mlat_wanted` set, except that it is empty whenever `bad_syncs > 0`.
This holds for both the legacy and the rate-aware branch of the interest
selector, for any configuration and randomness. -/
theorem C3_mlat_subset (env : Env) (r : ℕ) (now : ℚ) (st : Tracker) :
    ((update_interest env r now st).recvs r).mlat_interest =
      if 0 < (st.recvs r).bad_syncs then (∅ : Finset ℕ)
      else (st.recvs r).tracking ∩ (update_interest env r now st).mlat_wanted := by
  unfold update_interest
  dsimp only
  split
  · rw [uis_mlat_self, uis_mlat_wanted, refresh_wanted_recvs]
  · rw [uis_mlat_self, uis_mlat_wanted, mk_ratepairs_st_recvs,
      mk_ratepairs_st_mlat_wanted, refresh_wanted_recvs]

theorem round_quarter_le (M c : ℕ) (h : (M : ℚ) / 4 < (c : ℚ)) :
    round_quarter M ≤ c := by
  have h4 : (M : ℚ) < 4 * c := by linarith
  have hM : M < 4 * c := by exact_mod_cast h4
  unfold round_quarter
  split_ifs <;> omega

theorem round_quarter_le_self (M : ℕ) : round_quarter M ≤ M := by
  unfold round_quarter
  split_ifs <;> omega

theorem sampleFirst_card (s : Finset ℕ) (k : ℕ) (hk : k ≤ s.card) :
    (sampleFirst s k).card = k := by
  unfold sampleFirst
  rw [List.toFinset_card_of_nodup ((List.take_sublist _ _).nodup (Finset.sort_nodup _ _))]
  rw [List.length_take, Finset.length_sort]
  omega

/-- Claim C6 (amended): in legacy mode (no rate report) the committed sync
interest set has size at most `max MAX_SYNC_AC (MAX_SYNC_AC / 4)`, i.e.
at most `MAX_SYNC_AC`, for any `bad_syncs`; the rate-aware branch does
not obey this bound (see the counterexample). -/
theorem C6_sync_bound_legacy (env : Env) (r : ℕ) (now : ℚ) (st : Tracker)
    (hrep : (st.recvs r).last_rate_report = none)
    (hsample : ∀ s k, k ≤ s.card → (env.sample s k).card = k) :
    (((update_interest env r now st).recvs r).sync_interest).card ≤
      max env.MAX_SYNC_AC (env.MAX_SYNC_AC / 4) := by
  have hmax : env.MAX_SYNC_AC ≤ max env.MAX_SYNC_AC (env.MAX_SYNC_AC / 4) :=
    le_max_left _ _
  unfold update_interest
  dsimp only
  split
  · rename_i heq
    rw [uis_sync_self]
    set T := ((refresh_wanted env now st).recvs r).tracking with hTdef
    set NS := if env.MAX_SYNC_AC < T.card then env.sample T env.MAX_SYNC_AC else T
      with hNSdef
    have hNS : NS.card ≤ env.MAX_SYNC_AC := by
      rw [hNSdef]
      by_cases hbig : env.MAX_SYNC_AC < T.card
      · rw [if_pos hbig, hsample _ _ (le_of_lt hbig)]
      · rw [if_neg hbig]; omega
    split_ifs with hq
    · rw [hsample _ _ (round_quarter_le _ _ hq.2)]
      exact le_trans (round_quarter_le_self _) hmax
    · exact le_trans hNS hmax
  · rename_i report heq
    rw [refresh_wanted_recvs, hrep] at heq
    cases heq

/-- Claim C6, witness for the amended theorem. -/
theorem C6_sync_bound_legacy_witness :
    (stC6w.recvs 0).last_rate_report = none ∧
    (((update_interest envC6 0 0 stC6w).recvs 0).sync_interest).card ≤
      max envC6.MAX_SYNC_AC (envC6.MAX_SYNC_AC / 4) :=
  ⟨rfl, C6_sync_bound_legacy envC6 0 0 stC6w rfl
    (fun s k hk => sampleFirst_card s k hk)⟩

set_option maxHeartbeats 1600000 in
/-- Claim C6, counterexample: in the rate-aware branch with `bad_syncs = 0`
no cap on the number of selected aircraft is applied — with
`MAX_SYNC_AC = 2`, a receiver whose rate report covers three low-rate
aircraft commits a sync interest set of size 3 (the rounds stop only on
`MAX_SYNC_RATE`). -/
theorem C6_counterexample :
    max envC6.MAX_SYNC_AC (envC6.MAX_SYNC_AC / 4) <
      (((update_interest envC6 0 0 stC6).recvs 0).sync_interest).card := by
  have hsort : ({0, 1} : Finset ℕ).sort (· ≤ ·) = [0, 1] := by
    have h : ({0, 1} : Finset ℕ) = Finset.range 2 := by decide
    rw [h, Finset.sort_range]
    decide
  have hrw : refresh_wanted envC6 0 stC6 = stC6 := by
    unfold refresh_wanted
    rw [if_neg (by norm_num [stC6])]
  have h1 : rateEntry envC6 0 0 { st := stC6 } (1, 1) = ctxC6one := by
    unfold rateEntry
    dsimp only
    rw [show List.lookup (1 : ℕ) stC6.aircraft = some 1 from rfl]
    dsimp only
    norm_num [stC6, acC6, envC6, hsort, ctxC6one, objsC6one,
      pmC6one, PC6, Function.update_apply]
  have h2 : rateEntry envC6 0 0 ctxC6one (2, 1) = ctxC6two := by
    unfold rateEntry
    dsimp only
    rw [show List.lookup (2 : ℕ) ctxC6one.st.aircraft = some 2 from rfl]
    dsimp only
    norm_num [stC6, acC6, envC6, hsort, ctxC6one, ctxC6two,
      objsC6one, objsC6two, pmC6one, pmC6two, PC6, Function.update_apply]
  have h3 : rateEntry envC6 0 0 ctxC6two (3, 1) = ctxC6three := by
    unfold rateEntry
    dsimp only
    rw [show List.lookup (3 : ℕ) ctxC6two.st.aircraft = some 3 from rfl]
    dsimp only
    norm_num [stC6, acC6, envC6, hsort, ctxC6two, ctxC6three,
      objsC6one, objsC6two, objsC6three, pmC6two, pmC6three, PC6,
      Function.update_apply]
  have hmk : mk_ratepairs envC6 0 0 [(1, 1), (2, 1), (3, 1)] stC6 = ctxC6three := by
    unfold mk_ratepairs
    rw [List.foldl_cons, h1, List.foldl_cons, h2, List.foldl_cons, h3,
      List.foldl_nil]
  unfold update_interest
  dsimp only
  rw [hrw]
  split
  · rename_i heq
    simp [stC6] at heq
  · rename_i report heq
    rw [show (stC6.recvs 0).last_rate_report = some [(1, 1), (2, 1), (3, 1)] from rfl,
      Option.some.injEq] at heq
    subst heq
    rw [uis_sync_self, hmk]
    have hsorted : sortDesc ctxC6three.flat = [PC6 3, PC6 2, PC6 1] := by
      norm_num [ctxC6three, sortDesc, insDesc, rpGT, PC6]
    have hsync :
        (selRound envC6 ctxC6three.pairMap ctxC6three.st.objs false (7 / 2)
          (sortDesc ctxC6three.flat)
          (selRound envC6 ctxC6three.pairMap ctxC6three.st.objs true (3 / 10)
            (envC6.shuffle
              (List.take ((sortDesc ctxC6three.flat).length / 2) (sortDesc ctxC6three.flat)))
            { ntotal := fun _ => 0, new_sync := ∅, total_rate := 0 })).new_sync
          = {1, 2, 3} := by
      rw [hsorted]
      norm_num [ctxC6three, pmC6three, pmC6two, pmC6one, objsC6three, objsC6two,
        objsC6one, PC6, stC6, acC6, envC6, selRound, bumpNtotal,
        Function.update_apply]
    rw [hsync]
    norm_num [ctxC6three, stC6, envC6, Finset.card_insert_of_not_mem]

theorem lookup_mem {k v : ℕ} :
    ∀ {l : List (ℕ × ℕ)}, List.lookup k l = some v → (k, v) ∈ l := by
  intro l
  induction l with
  | nil => intro h; simp at h
  | cons p rest ih =>
    obtain ⟨a, b⟩ := p
    intro h
    by_cases hak : a = k
    · subst hak
      simp [List.lookup] at h
      simp [h]
    · have hba : (k == a) = false := beq_eq_false_iff_ne.mpr (Ne.symm hak)
      have heq : List.lookup k ((a, b) :: rest) = List.lookup k rest := by
        simp [List.lookup, hba]
      rw [heq] at h
      exact List.mem_cons_of_mem _ (ih h)

theorem mem_mirrorStep_self (r a : ℕ) (newS oldS cur : Finset ℕ)
    (hsym : r ∈ cur ↔ a ∈ oldS) :
    r ∈ mirrorStep r a newS oldS cur ↔ a ∈ newS := by
  unfold mirrorStep
  split_ifs with h1 h2
  · simp [h1.1]
  · simp [Finset.mem_erase, h2.2]
  · rw [hsym]
    constructor
    · intro h; by_contra hn; exact h2 ⟨h, hn⟩
    · intro h; by_contra hn; exact h1 ⟨h, hn⟩

theorem mem_mirrorStep_other (r r' a : ℕ) (newS oldS cur : Finset ℕ)
    (hne : r' ≠ r) :
    r' ∈ mirrorStep r a newS oldS cur ↔ r' ∈ cur := by
  unfold mirrorStep
  split_ifs <;> simp [Finset.mem_insert, Finset.mem_erase, hne]

theorem symm_uis (env : Env) (r : ℕ) (ns nm na : Finset ℕ) (st : Tracker)
    (hs : Symm st) : Symm (update_interest_sets env r ns nm na st) := by
  intro r' a
  obtain ⟨ht, hsy, hm, hads⟩ := hs r' a
  unfold update_interest_sets
  dsimp only
  by_cases hr : r' = r
  · subst hr
    rw [Function.update_same]
    dsimp only
    exact ⟨ht,
      (mem_mirrorStep_self _ _ _ _ _ (hsy.symm)).symm,
      (mem_mirrorStep_self _ _ _ _ _ (hm.symm)).symm,
      (mem_mirrorStep_self _ _ _ _ _ (hads.symm)).symm⟩
  · rw [Function.update_noteq hr]
    exact ⟨ht,
      hsy.trans (mem_mirrorStep_other _ _ _ _ _ _ hr).symm,
      hm.trans (mem_mirrorStep_other _ _ _ _ _ _ hr).symm,
      hads.trans (mem_mirrorStep_other _ _ _ _ _ _ hr).symm⟩

theorem symmWF_addOne (env : Env) (r : ℕ) (now : ℚ) (st : Tracker) (icao : ℕ)
    (hs : Symm st) (hw : WF st) :
    Symm (addOne env r now st icao) ∧ WF (addOne env r now st icao) := by
  obtain ⟨hwr, hwreg, hwobj⟩ := hw
  unfold addOne
  cases hl : st.aircraft.lookup icao with
  | some oid =>
    have hoid : oid < st.next := hwreg _ (lookup_mem hl)
    dsimp only
    constructor
    · intro r' a
      obtain ⟨ht, hsy, hm, hads⟩ := hs r' a
      refine ⟨?_, ?_, ?_, ?_⟩ <;>
        by_cases hr : r' = r <;> by_cases ha : a = oid <;>
          subst_eqs <;>
          simp_all [Function.update_apply, Finset.mem_insert]
    · refine ⟨?_, ?_, ?_⟩
      · intro r' a h
        show a < st.next
        simp only [Function.update_apply] at h
        by_cases hr : r' = r
        · rw [if_pos hr] at h
          dsimp only at h
          rcases h with h | h | h | h
          · rcases Finset.mem_insert.mp h with h | h
            · exact h ▸ hoid
            · exact hwr r a (Or.inl h)
          · exact hwr r a (Or.inr (Or.inl h))
          · exact hwr r a (Or.inr (Or.inr (Or.inl h)))
          · exact hwr r a (Or.inr (Or.inr (Or.inr h)))
        · rw [if_neg hr] at h
          exact hwr r' a h
      · exact hwreg
      · intro a ha
        dsimp only at ha ⊢
        rw [Function.update_noteq (show a ≠ oid by omega)]
        exact hwobj a ha
  | none =>
    dsimp only
    constructor
    · intro r' a
      obtain ⟨ht, hsy, hm, hads⟩ := hs r' a
      by_cases ha : a = st.next
      · subst ha
        have hrefs : ∀ r'', ¬(st.next ∈ (st.recvs r'').tracking ∨
            st.next ∈ (st.recvs r'').sync_interest ∨
            st.next ∈ (st.recvs r'').mlat_interest ∨
            st.next ∈ (st.recvs r'').adsb_seen) := by
          intro r'' hmem
          exact absurd (hwr r'' st.next hmem) (lt_irrefl _)
        have h1 := fun h => hrefs r' (Or.inl h)
        have h2 := fun h => hrefs r' (Or.inr (Or.inl h))
        have h3 := fun h => hrefs r' (Or.inr (Or.inr (Or.inl h)))
        have h4 := fun h => hrefs r' (Or.inr (Or.inr (Or.inr h)))
        refine ⟨?_, ?_, ?_, ?_⟩ <;>
          by_cases hr : r' = r <;> subst_eqs <;>
            simp_all [Function.update_apply, Finset.mem_insert]
      · refine ⟨?_, ?_, ?_, ?_⟩ <;>
          by_cases hr : r' = r <;> subst_eqs <;>
            simp_all [Function.update_apply, Finset.mem_insert]
    · refine ⟨?_, ?_, ?_⟩
      · intro r' a h
        show a < st.next + 1
        simp only [Function.update_apply] at h
        by_cases hr : r' = r
        · rw [if_pos hr] at h
          dsimp only at h
          rcases h with h | h | h | h
          · rcases Finset.mem_insert.mp h with h | h
            · omega
            · exact lt_trans (hwr r a (Or.inl h)) (by omega)
          · exact lt_trans (hwr r a (Or.inr (Or.inl h))) (by omega)
          · exact lt_trans (hwr r a (Or.inr (Or.inr (Or.inl h)))) (by omega)
          · exact lt_trans (hwr r a (Or.inr (Or.inr (Or.inr h)))) (by omega)
        · rw [if_neg hr] at h
          exact lt_trans (hwr r' a h) (by omega)
      · intro p hp
        show p.2 < st.next + 1
        dsimp only at hp
        rcases List.mem_append.mp hp with hp | hp
        · exact lt_trans (hwreg p hp) (by omega)
        · obtain ⟨p1, p2⟩ := p
          simp at hp
          show p2 < st.next + 1
          omega
      · intro a ha
        dsimp only at ha ⊢
        rw [Function.update_noteq (show a ≠ st.next by omega)]
        exact hwobj a (by omega)

theorem symmWF_add (env : Env) (r : ℕ) (icaos : List ℕ) (now : ℚ) :
    ∀ st : Tracker, Symm st → WF st →
      Symm (add env r icaos now st) ∧ WF (add env r icaos now st) := by
  induction icaos with
  | nil => exact fun st hs hw => ⟨hs, hw⟩
  | cons i rest ih =>
    intro st hs hw
    have hstep := symmWF_addOne env r now st i hs hw
    have : add env r (i :: rest) now st = add env r rest now (addOne env r now st i) := by
      unfold add
      rw [List.foldl_cons]
    rw [this]
    exact ih _ hstep.1 hstep.2

theorem symm_removeOne (r : ℕ) (st : Tracker) (icao : ℕ) (hs : Symm st) :
    Symm (removeOne r st icao) := by
  unfold removeOne
  cases hl : st.aircraft.lookup icao with
  | none => exact hs
  | some oid =>
    dsimp only
    have key : Symm
        { st with
          objs := Function.update st.objs oid
            { st.objs oid with tracking := (st.objs oid).tracking.erase r },
          recvs := Function.update st.recvs r
            (let rc := st.recvs r
             { rc with tracking := rc.tracking.erase oid }) } := by
      intro r' a
      obtain ⟨ht, hsy, hm, hads⟩ := hs r' a
      refine ⟨?_, ?_, ?_, ?_⟩ <;>
        by_cases hr : r' = r <;> by_cases ha : a = oid <;> subst_eqs <;>
          simp_all [Function.update_apply, Finset.mem_erase]
    split_ifs with hdel
    · intro r' a
      exact key r' a
    · exact key

theorem symm_remove (r : ℕ) (icaos : List ℕ) :
    ∀ st : Tracker, Symm st → Symm (remove r icaos st) := by
  induction icaos with
  | nil => exact fun st hs => hs
  | cons i rest ih =>
    intro st hs
    have : remove r (i :: rest) st = remove r rest (removeOne r st i) := by
      unfold remove
      rw [List.foldl_cons]
    rw [this]
    exact ih _ (symm_removeOne r st i hs)

theorem symm_remove_all (r : ℕ) (st : Tracker) (hs : Symm st)
    (hsync : (st.recvs r).sync_interest ⊆ (st.recvs r).tracking)
    (hmlat : (st.recvs r).mlat_interest ⊆ (st.recvs r).tracking)
    (hadsb : (st.recvs r).adsb_seen ⊆ (st.recvs r).tracking) :
    Symm (remove_all r st) := by
  intro r' a
  obtain ⟨ht, hsy, hm, hads⟩ := hs r' a
  unfold remove_all
  dsimp only
  by_cases hr : r' = r
  · subst hr
    rw [Function.update_same]
    dsimp only
    by_cases hmem : a ∈ (st.recvs r').tracking
    · simp [hmem, Finset.mem_erase]
    · have hnt : r' ∉ (st.objs a).tracking := fun h => hmem (ht.mpr h)
      have hns : r' ∉ (st.objs a).sync_interest :=
        fun h => hmem (hsync (hsy.mpr h))
      have hnm : r' ∉ (st.objs a).mlat_interest :=
        fun h => hmem (hmlat (hm.mpr h))
      have hna : r' ∉ (st.objs a).adsb_seen :=
        fun h => hmem (hadsb (hads.mpr h))
      simp [hmem, hnt, hns, hnm, hna]
  · rw [Function.update_noteq hr]
    by_cases hmem : a ∈ (st.recvs r).tracking <;>
      simp_all [Finset.mem_erase, hr]

/-- Claim C1 (amended): bipartite symmetry is preserved by `add`, `remove`
and `update_interest_sets` from any symmetric well-formed state, and by
`remove_all` provided the receiver's `sync_interest`, `mlat_interest` and
`adsb_seen` sets are contained in its `tracking` set.  Without that
containment, `remove_all` leaves the receiver dangling in the mirror sets
of aircraft it does not track (see the counterexample), since its loop
only visits `receiver.tracking`. -/
theorem C1_bipartite_symmetry (env : Env) (r : ℕ) (icaos : List ℕ) (now : ℚ)
    (ns nm na : Finset ℕ) (st : Tracker) (hs : Symm st) (hw : WF st)
    (hsync : (st.recvs r).sync_interest ⊆ (st.recvs r).tracking)
    (hmlat : (st.recvs r).mlat_interest ⊆ (st.recvs r).tracking)
    (hadsb : (st.recvs r).adsb_seen ⊆ (st.recvs r).tracking) :
    Symm (add env r icaos now st) ∧ Symm (remove r icaos st) ∧
    Symm (update_interest_sets env r ns nm na st) ∧ Symm (remove_all r st) :=
  ⟨(symmWF_add env r icaos now st hs hw).1,
   symm_remove r icaos st hs,
   symm_uis env r ns nm na st hs,
   symm_remove_all r st hs hsync hmlat hadsb⟩

theorem stC1_symm : Symm stC1 := by
  intro r a
  by_cases hr : r = 9 <;> by_cases ha : a = 0 <;>
    simp_all [stC1, Symm]

theorem stC1W_symm : Symm stC1W := by
  intro r a
  by_cases hr : r = 0 <;> by_cases ha : a = 0 <;>
    simp_all [stC1W, Symm]

theorem stC1W_wf : WF stC1W := by
  refine ⟨?_, ?_, ?_⟩
  · intro r a h
    by_cases hr : r = 0 <;> simp_all [stC1W]
  · intro p hp
    obtain ⟨p1, p2⟩ := p
    simp [stC1W] at hp
    show p2 < 1
    omega
  · intro a ha
    have : a ≠ 0 := by simp [stC1W] at ha ⊢; omega
    simp [stC1W, this]

/-- Claim C1, counterexample: from the symmetric state `stC1`, committing
`sync_interest = {aircraft 0}` for receiver 0 (which does not track it —
the rate-aware selector produces such sets from rate-report aircraft
outside the tracking set) yields a symmetric state, but `remove_all 0`
then clears receiver 0's sets while leaving receiver 0 in the aircraft's
`sync_interest` mirror: symmetry is broken, the mirror entry dangles. -/
theorem C1_counterexample :
    Symm (update_interest_sets env0 0 {0} ∅ ∅ stC1) ∧
    0 ∈ ((remove_all 0 (update_interest_sets env0 0 {0} ∅ ∅ stC1)).objs 0).sync_interest ∧
    0 ∉ ((remove_all 0 (update_interest_sets env0 0 {0} ∅ ∅ stC1)).recvs 0).sync_interest ∧
    ¬Symm (remove_all 0 (update_interest_sets env0 0 {0} ∅ ∅ stC1)) := by
  have hmem :
      0 ∈ ((remove_all 0 (update_interest_sets env0 0 {0} ∅ ∅ stC1)).objs 0).sync_interest := by
    norm_num [remove_all, update_interest_sets, mirrorStep, stC1, env0,
      Function.update_apply]
  have hnot :
      0 ∉ ((remove_all 0 (update_interest_sets env0 0 {0} ∅ ∅ stC1)).recvs 0).sync_interest := by
    norm_num [remove_all, update_interest_sets, mirrorStep, stC1, env0,
      Function.update_apply]
  exact ⟨symm_uis env0 0 {0} ∅ ∅ stC1 stC1_symm, hmem, hnot,
    fun h => hnot ((h 0 0).2.1.mpr hmem)⟩

/-- Claim C1, witness for the amended theorem. -/
theorem C1_bipartite_symmetry_witness :
    (Symm stC1W ∧ WF stC1W ∧
      (stC1W.recvs 0).sync_interest ⊆ (stC1W.recvs 0).tracking ∧
      (stC1W.recvs 0).mlat_interest ⊆ (stC1W.recvs 0).tracking ∧
      (stC1W.recvs 0).adsb_seen ⊆ (stC1W.recvs 0).tracking) ∧
    (Symm (add env0 0 [5] 0 stC1W) ∧ Symm (remove 0 [5] stC1W) ∧
     Symm (update_interest_sets env0 0 ∅ ∅ ∅ stC1W) ∧ Symm (remove_all 0 stC1W)) :=
  ⟨⟨stC1W_symm, stC1W_wf, by decide, by decide, by decide⟩,
   C1_bipartite_symmetry env0 0 [5] 0 ∅ ∅ ∅ stC1W stC1W_symm stC1W_wf
     (by decide) (by decide) (by decide)⟩

theorem lookup_filter_ne {k i : ℕ} (l : List (ℕ × ℕ)) (hk : k ≠ i) :
    List.lookup k (l.filter fun p => p.1 != i) = List.lookup k l := by
  induction l with
  | nil => rfl
  | cons p rest ih =>
    obtain ⟨a, b⟩ := p
    by_cases hai : a = i
    · subst hai
      have h2 : (k == a) = false := beq_eq_false_iff_ne.mpr hk
      have h1 : ((a, b).1 != a) = false := by simp
      rw [List.filter_cons, h1]
      simp only [Bool.false_eq_true, if_false]
      rw [ih, List.lookup_cons, h2]
    · have h1 : ((a, b).1 != i) = true := by simp [hai]
      rw [List.filter_cons, h1, if_pos rfl]
      rw [List.lookup_cons, List.lookup_cons]
      cases hka : (k == a)
      · exact ih
      · rfl

theorem filter_of_lookup_none {i : ℕ} :
    ∀ {l : List (ℕ × ℕ)}, List.lookup i l = none →
      l.filter (fun p => p.1 != i) = l := by
  intro l
  induction l with
  | nil => intro _; rfl
  | cons p rest ih =>
    obtain ⟨a, b⟩ := p
    intro h
    rw [List.lookup_cons] at h
    by_cases hai : a = i
    · subst hai
      simp at h
    · have h2 : (i == a) = false := beq_eq_false_iff_ne.mpr (Ne.symm hai)
      rw [h2] at h
      have h1 : ((a, b).1 != i) = true := by simp [hai]
      rw [List.filter_cons, h1, if_pos rfl]
      rw [ih h]

theorem addOne_fresh (env : Env) (r : ℕ) (now : ℚ) (st : Tracker) (i : ℕ)
    (hi : st.aircraft.lookup i = none) :
    addOne env r now st i =
      { st with
        aircraft := st.aircraft ++ [(i, st.next)],
        objs := Function.update st.objs st.next
          { icao := i,
            allow_mlat := in_local_partition st.partition_id st.partition_count i,
            tracking := {r},
            last_force_mlat := now - env.FORCE_MLAT_INTERVAL * env.rand i,
            seen := now },
        next := st.next + 1,
        recvs := Function.update st.recvs r
          (let rc := st.recvs r
           { rc with tracking := insert st.next rc.tracking }) } := by
  unfold addOne
  rw [hi]

theorem recvs_eta (f : ℕ → Receiver) (r : ℕ) :
    ({ tracking := (f r).tracking, adsb_seen := (f r).adsb_seen,
       sync_interest := (f r).sync_interest, mlat_interest := (f r).mlat_interest,
       bad_syncs := (f r).bad_syncs, last_rate_report := (f r).last_rate_report,
       sync_peers := (f r).sync_peers, recent_pair_jumps := (f r).recent_pair_jumps,
       recent_clock_jumps := (f r).recent_clock_jumps,
       last_clock_reset := (f r).last_clock_reset,
       clock_reset_counter := (f r).clock_reset_counter } : Receiver) = f r := rfl

theorem removeOne_addOne_comm (env : Env) (r : ℕ) (now : ℚ) (st : Tracker)
    (i j : ℕ) (hij : i ≠ j) (hj : st.aircraft.lookup j = none)
    (hreg : ∀ p ∈ st.aircraft, p.2 < st.next) :
    removeOne r (addOne env r now st j) i = addOne env r now (removeOne r st i) j := by
  cases hi : st.aircraft.lookup i with
  | none =>
    have h1 : (addOne env r now st j).aircraft.lookup i = none := by
      rw [addOne_fresh env r now st j hj]
      dsimp only
      rw [List.lookup_append, hi]
      simp [List.lookup_cons, beq_eq_false_iff_ne.mpr hij]
    unfold removeOne
    rw [h1, hi]
  | some oid =>
    have hoid : oid < st.next := hreg _ (lookup_mem hi)
    have hne : st.next ≠ oid := by omega
    rw [addOne_fresh env r now st j hj]
    unfold removeOne
    rw [show List.lookup i (st.aircraft ++ [(j, st.next)]) = some oid by
      rw [List.lookup_append, hi]; rfl]
    rw [hi]
    dsimp only
    rw [Function.update_noteq (Ne.symm hne)]
    rw [apply_ite (fun s => addOne env r now s j)]
    by_cases hdel :
        ({ st.objs oid with tracking := (st.objs oid).tracking.erase r }).tracking = ∅
    · rw [if_pos hdel, if_pos hdel]
      rw [addOne_fresh env r now _ j (by
        dsimp only
        rw [lookup_filter_ne _ (Ne.symm hij), hj])]
      dsimp only
      simp only [Function.update_same]
      have hfa : (st.aircraft ++ [(j, st.next)]).filter (fun p => p.1 != i)
          = st.aircraft.filter (fun p => p.1 != i) ++ [(j, st.next)] := by
        rw [List.filter_append]
        congr 1
        simp [Ne.symm hij]
      rw [hfa, Function.update_comm hne, Function.update_idem, Function.update_idem,
        Finset.erase_insert_of_ne hne]
    · rw [if_neg hdel, if_neg hdel]
      rw [addOne_fresh env r now _ j (by dsimp only; rw [hj])]
      dsimp only
      simp only [Function.update_same]
      rw [Function.update_comm hne, Function.update_idem, Function.update_idem,
        Finset.erase_insert_of_ne hne]

theorem removeOne_add_comm (env : Env) (r : ℕ) (now : ℚ) (i : ℕ) :
    ∀ (rest : List ℕ) (st : Tracker), i ∉ rest → rest.Nodup →
      (∀ j ∈ rest, st.aircraft.lookup j = none) →
      (∀ p ∈ st.aircraft, p.2 < st.next) →
      removeOne r (add env r rest now st) i = add env r rest now (removeOne r st i) := by
  intro rest
  induction rest with
  | nil => intro st _ _ _ _; rfl
  | cons j rest ih =>
    intro st hni hnd hfresh hreg
    have hij : i ≠ j := fun h => hni (h ▸ List.mem_cons_self j rest)
    have hcons : ∀ st' : Tracker,
        add env r (j :: rest) now st' = add env r rest now (addOne env r now st' j) := by
      intro st'
      unfold add
      rw [List.foldl_cons]
    rw [hcons st, hcons (removeOne r st i)]
    have hfresh' : ∀ k ∈ rest, (addOne env r now st j).aircraft.lookup k = none := by
      intro k hk
      have hkj : k ≠ j := fun h => (List.nodup_cons.mp hnd).1 (h ▸ hk)
      rw [addOne_fresh env r now st j (hfresh j (List.mem_cons_self j rest))]
      dsimp only
      rw [List.lookup_append, hfresh k (List.mem_cons_of_mem j hk)]
      simp [List.lookup_cons, beq_eq_false_iff_ne.mpr hkj]
    have hreg' : ∀ p ∈ (addOne env r now st j).aircraft, p.2 < (addOne env r now st j).next := by
      rw [addOne_fresh env r now st j (hfresh j (List.mem_cons_self j rest))]
      dsimp only
      intro p hp
      rcases List.mem_append.mp hp with hp | hp
      · exact lt_trans (hreg p hp) (by omega)
      · obtain ⟨p1, p2⟩ := p
        simp at hp
        show p2 < st.next + 1
        omega
    rw [ih (addOne env r now st j) (fun h => hni (List.mem_cons_of_mem j h))
      (List.nodup_cons.mp hnd).2 hfresh' hreg']
    rw [removeOne_addOne_comm env r now st i j hij
      (hfresh j (List.mem_cons_self j rest)) hreg]

theorem removeOne_addOne_fresh (env : Env) (r : ℕ) (now : ℚ) (st : Tracker) (i : ℕ)
    (hi : st.aircraft.lookup i = none)
    (hWr : ∀ a ∈ (st.recvs r).tracking, a < st.next) :
    removeOne r (addOne env r now st i) i =
      { st with
        objs := Function.update st.objs st.next
          { icao := i,
            allow_mlat := in_local_partition st.partition_id st.partition_count i,
            tracking := ∅,
            last_force_mlat := now - env.FORCE_MLAT_INTERVAL * env.rand i,
            seen := now },
        next := st.next + 1 } := by
  have hnn : st.next ∉ (st.recvs r).tracking := fun h =>
    absurd (hWr _ h) (lt_irrefl _)
  rw [addOne_fresh env r now st i hi]
  unfold removeOne
  rw [show List.lookup i (st.aircraft ++ [(i, st.next)]) = some st.next by
    rw [List.lookup_append, hi]; simp [List.lookup_cons]]
  dsimp only
  simp only [Function.update_same]
  rw [show ({r} : Finset ℕ).erase r = (∅ : Finset ℕ) from Finset.erase_singleton r]
  rw [if_pos rfl]
  have hfa : (st.aircraft ++ [(i, st.next)]).filter (fun p => p.1 != i)
      = st.aircraft := by
    rw [List.filter_append, filter_of_lookup_none hi]
    simp
  rw [hfa, Function.update_idem, Function.update_idem,
    Finset.erase_insert hnn, recvs_eta, Function.update_eq_self]

theorem obsEq_refl (st : Tracker) : ObsEq st st := ⟨fun _ => rfl, rfl, rfl⟩

theorem obsEq_trans {a b c : Tracker} (h1 : ObsEq a b) (h2 : ObsEq b c) : ObsEq a c :=
  ⟨fun i => (h1.1 i).trans (h2.1 i), h1.2.1.trans h2.2.1, h1.2.2.trans h2.2.2⟩

/-- Claim C7 (amended): when every icao in the set is fresh (not currently
in the registry), `add(r, S); remove(r, S)` restores the observable
registry state: the icao-to-aircraft-state map, the receiver objects
(hence all tracking edge sets), and the MLAT-wanted set.  When some icao
of `S` is already registered, the law fails (see the counterexample: the
`remove` deletes a previously tracked aircraft, and the `add` stamps
`seen` on pre-existing aircraft). -/
theorem C7_add_remove_inverse (env : Env) (r : ℕ) (now : ℚ) :
    ∀ (icaos : List ℕ) (st : Tracker), icaos.Nodup →
      (∀ i ∈ icaos, st.aircraft.lookup i = none) → WF st →
      ObsEq (remove r icaos (add env r icaos now st)) st := by
  intro icaos
  induction icaos with
  | nil => intro st _ _ _; exact obsEq_refl st
  | cons i rest ih =>
    intro st hnd hfresh hw
    obtain ⟨hwr, hwreg, hwobj⟩ := hw
    have hstep :
        remove r (i :: rest) (add env r (i :: rest) now st)
          = remove r rest (removeOne r (add env r rest now (addOne env r now st i)) i) := by
      unfold add remove
      rw [List.foldl_cons, List.foldl_cons]
    rw [hstep]
    have hfreshA : ∀ k ∈ rest, (addOne env r now st i).aircraft.lookup k = none := by
      intro k hk
      have hki : k ≠ i := fun h => (List.nodup_cons.mp hnd).1 (h ▸ hk)
      rw [addOne_fresh env r now st i (hfresh i (List.mem_cons_self i rest))]
      dsimp only
      rw [List.lookup_append, hfresh k (List.mem_cons_of_mem i hk)]
      simp [List.lookup_cons, beq_eq_false_iff_ne.mpr hki]
    have hregA : ∀ p ∈ (addOne env r now st i).aircraft,
        p.2 < (addOne env r now st i).next := by
      rw [addOne_fresh env r now st i (hfresh i (List.mem_cons_self i rest))]
      dsimp only
      intro p hp
      rcases List.mem_append.mp hp with hp | hp
      · exact lt_trans (hwreg p hp) (by omega)
      · obtain ⟨p1, p2⟩ := p
        simp at hp
        show p2 < st.next + 1
        omega
    rw [removeOne_add_comm env r now i rest (addOne env r now st i)
      (fun h => (List.nodup_cons.mp hnd).1 h) (List.nodup_cons.mp hnd).2 hfreshA hregA]
    rw [removeOne_addOne_fresh env r now st i (hfresh i (List.mem_cons_self i rest))
      (fun a ha => hwr r a (Or.inl ha))]
    set stStar : Tracker :=
      { st with
        objs := Function.update st.objs st.next
          { icao := i,
            allow_mlat := in_local_partition st.partition_id st.partition_count i,
            tracking := ∅,
            last_force_mlat := now - env.FORCE_MLAT_INTERVAL * env.rand i,
            seen := now },
        next := st.next + 1 } with hstStar
    have hwStar : WF stStar := by
      refine ⟨?_, ?_, ?_⟩
      · intro r' a h
        show a < st.next + 1
        exact lt_trans (hwr r' a h) (by omega)
      · intro p hp
        show p.2 < st.next + 1
        exact lt_trans (hwreg p hp) (by omega)
      · intro a ha
        show Function.update st.objs st.next _ a = _
        have ha' : st.next + 1 ≤ a := ha
        rw [Function.update_noteq (show a ≠ st.next by omega)]
        exact hwobj a (by omega)
    have hfreshStar : ∀ k ∈ rest, stStar.aircraft.lookup k = none := by
      intro k hk
      exact hfresh k (List.mem_cons_of_mem i hk)
    have hIH := ih stStar (List.nodup_cons.mp hnd).2 hfreshStar hwStar
    refine obsEq_trans hIH ⟨?_, rfl, rfl⟩
    intro k
    show (st.aircraft.lookup k).map stStar.objs = (st.aircraft.lookup k).map st.objs
    cases hk : st.aircraft.lookup k with
    | none => rfl
    | some oid =>
      have : oid < st.next := hwreg _ (lookup_mem hk)
      dsimp only [Option.map_some']
      rw [Function.update_noteq (show oid ≠ st.next by omega)]

theorem stC7_wf : WF stC7 := by
  refine ⟨?_, ?_, ?_⟩
  · intro r a h
    by_cases hr : r = 0 <;> simp_all [stC7]
  · intro p hp
    obtain ⟨p1, p2⟩ := p
    simp [stC7] at hp
    show p2 < 1
    omega
  · intro a ha
    have : a ≠ 0 := by simp [stC7] at ha ⊢; omega
    simp [stC7, this]

/-- Claim C7, counterexample: icao 5 is already registered and tracked by
receiver 0, so `add 0 {5}` is a no-op on the edges; `remove 0 {5}` then
removes the genuine edge and, the tracking set being empty, deletes the
aircraft: the registry does not return to its pre-`add` state. -/
theorem C7_counterexample :
    (stC7.aircraft.lookup 5).isSome = true ∧
    (remove 0 [5] (add env0 0 [5] 0 stC7)).aircraft.lookup 5 = none := by
  constructor
  · rfl
  · norm_num [remove, add, removeOne, addOne, stC7, env0, List.lookup,
      Function.update_apply]

/-- Claim C7, witness for the amended theorem. -/
theorem C7_add_remove_inverse_witness :
    ([9] : List ℕ).Nodup ∧ stC7.aircraft.lookup 9 = none ∧ WF stC7 ∧
    ObsEq (remove 0 [9] (add env0 0 [9] 0 stC7)) stC7 :=
  ⟨by decide, rfl, stC7_wf,
   C7_add_remove_inverse env0 0 0 [9] stC7 (by decide)
     (by intro i hi; simp at hi; subst hi; rfl) stC7_wf⟩

theorem in_local_partition_eq (pid n icao : ℕ) (hne : n ≠ 1) :
    in_local_partition pid n icao = true ↔ pHash icao % n = pid := by
  simp [in_local_partition, pHash, hne]

/-- Claim C8: the partition filter is a deterministic function of the icao
and the partition configuration; with `partition_count = 1` it always
holds, and for a fixed `partition_count = n > 1` every 24-bit icao
satisfies the filter for exactly one `partition_index` in `[1..n]` (the
filter being the modulus test of the two-round 0x45d9f3b hash). -/
theorem C8_partition_filter (n icao : ℕ) (hn : 1 < n) (hicao : icao < 2 ^ 24) :
    (∀ pid j, in_local_partition pid 1 j = true) ∧
    ∃! i, i ∈ Finset.Icc 1 n ∧ in_local_partition (i - 1) n icao = true := by
  have hne : n ≠ 1 := hn.ne'
  constructor
  · intro pid j; simp [in_local_partition]
  · refine ⟨pHash icao % n + 1, ⟨?_, ?_⟩, ?_⟩
    · have := Nat.mod_lt (pHash icao) (show 0 < n by omega)
      simp [Finset.mem_Icc]; omega
    · rw [in_local_partition_eq _ _ _ hne]; omega
    · intro j hj
      obtain ⟨hj1, hj2⟩ := hj
      rw [in_local_partition_eq _ _ _ hne] at hj2
      simp [Finset.mem_Icc] at hj1
      omega

/-- Claim C9: `forward_results` performs no call exactly when the Kalman
state is invalid and `dof < 1`; otherwise it calls the report entry point
of every receiver of the contributing set, each with its own outcome, and
returns normally whatever the outcomes are. -/
theorem C9_forward_results (v : Bool) (dof : ℚ) (rs : List ℕ)
    (report : ℕ → Except Unit Unit) (hne : rs ≠ []) :
    ((forward_results v dof rs report).map Prod.fst = [] ↔ (v = false ∧ dof < 1)) ∧
    (¬(v = false ∧ dof < 1) →
      (forward_results v dof rs report).map Prod.fst = rs ∧
      ∀ rcv ∈ rs, (rcv, report rcv) ∈ forward_results v dof rs report) := by
  by_cases h : v = false ∧ dof < 1
  · have h' : ¬v = true ∧ dof < 1 := ⟨by simp [h.1], h.2⟩
    rw [forward_results, if_pos h']
    simp [h]
  · have h' : ¬(¬v = true ∧ dof < 1) := by
      intro hc; exact h ⟨by simpa using hc.1, hc.2⟩
    have hmap : (List.map (fun rcv => (rcv, report rcv)) rs).map Prod.fst = rs := by
      simp [Function.comp_def]
    refine ⟨?_, fun _ => ⟨?_, ?_⟩⟩
    · rw [forward_results, if_neg h', hmap]
      exact ⟨fun hc => absurd hc hne, fun hc => absurd hc h⟩
    · rw [forward_results, if_neg h', hmap]
    · intro rcv hrcv
      rw [forward_results, if_neg h']
      exact List.mem_map.mpr ⟨rcv, hrcv, rfl⟩

/-- Claim C2 (amended): during the throttled refresh, an aircraft is marked
MLAT-wanted (and `do_mlat` set) iff its tracking set has at least two
receivers, `allow_mlat` holds, and no ADS-B has been seen for more than
`NO_ADSB_MLAT_SECONDS`, or `sync_bad_percent > 10`, or the time since
`last_force_mlat` lies strictly between `FORCE_MLAT_INTERVAL - 15` and
`FORCE_MLAT_INTERVAL` (not the wider window `[interval-15, interval+15]`
of the flag hysteresis). -/
theorem C2_mlat_wanted_condition (env : Env) (now : ℚ) (ac : TrackedAircraft) :
    ((refresh_one env now ac).2 = true ↔
      (2 ≤ ac.tracking.card ∧ ac.allow_mlat = true ∧
        (env.NO_ADSB_MLAT_SECONDS < now - ac.last_adsb_time ∨
         10 < ac.sync_bad_percent ∨
         (env.FORCE_MLAT_INTERVAL - 15 < now - ac.last_force_mlat ∧
          now - ac.last_force_mlat < env.FORCE_MLAT_INTERVAL)))) ∧
    (refresh_one env now ac).1.do_mlat = (refresh_one env now ac).2 := by
  unfold refresh_one
  dsimp only
  split_ifs <;> simp_all

/-- Claim C2, counterexample: at `now = 610` with `last_force_mlat = 0` and
`FORCE_MLAT_INTERVAL = 600`, the aircraft is inside the claimed force
window `[585, 615]`, is tracked by two receivers and allows MLAT, yet the
refresh does not mark it MLAT-wanted (the code's marking window is
`(585, 600)`). -/
theorem C2_counterexample :
    2 ≤ acC2.tracking.card ∧ acC2.allow_mlat = true ∧
    env0.FORCE_MLAT_INTERVAL - 15 ≤ 610 - acC2.last_force_mlat ∧
    610 - acC2.last_force_mlat ≤ env0.FORCE_MLAT_INTERVAL + 15 ∧
    (refresh_one env0 610 acC2).2 = false ∧
    (refresh_one env0 610 acC2).1.do_mlat = false := by
  refine ⟨by decide, by decide, by norm_num [env0, acC2], by norm_num [env0, acC2], ?_, ?_⟩ <;>
    norm_num [refresh_one, env0, acC2, Finset.card_insert_of_not_mem]

/-- Claim C10 (amended): `incrementJumps` completes whenever `sync_peers`
is nonzero, and then increments `recent_pair_jumps` by one, increases
`recent_clock_jumps` by at most one and `bad_syncs` by at most 0.4, and
leaves the interest sets alone; with `sync_peers = 0` the ratio check
divides by zero and the call does not complete (see the
counterexample). -/
theorem C10_incrementJumps_nonzero_peers (now : ℚ) (r : Receiver)
    (h : r.sync_peers ≠ 0) :
    (incrementJumps now r).isSome = true ∧
    ∀ r', incrementJumps now r = some r' →
      r'.recent_pair_jumps = r.recent_pair_jumps + 1 ∧
      r.recent_clock_jumps ≤ r'.recent_clock_jumps ∧
      r'.recent_clock_jumps ≤ r.recent_clock_jumps + 1 ∧
      r.bad_syncs ≤ r'.bad_syncs ∧
      r'.bad_syncs ≤ r.bad_syncs + 2 / 5 ∧
      r'.tracking = r.tracking ∧ r'.sync_interest = r.sync_interest ∧
      r'.mlat_interest = r.mlat_interest ∧ r'.adsb_seen = r.adsb_seen := by
  constructor
  · unfold incrementJumps clock_reset
    dsimp only
    rw [if_neg h]
    split_ifs <;> simp
  · intro r' hr'
    unfold incrementJumps clock_reset at hr'
    dsimp only at hr'
    rw [if_neg h] at hr'
    split_ifs at hr' <;>
      (rw [Option.some.injEq] at hr'; subst hr') <;>
      refine ⟨rfl, ?_, ?_, ?_, ?_, rfl, rfl, rfl, rfl⟩ <;> dsimp <;> linarith

/-- Claim C10, counterexample: on a receiver with `sync_peers = 0` the
call does not complete (Python raises ZeroDivisionError on
`recent_pair_jumps / sync_peers`). -/
theorem C10_counterexample : incrementJumps 0 rC10 = none := by decide

/-- Claim C5 (amended): after every scorer pass `bad_syncs` lies in
`[0, 6]` and `recent_clock_jumps` is non-negative; `incrementJumps`
preserves both lower bounds, but it adds 0.4 to `bad_syncs` without an
upper clamp, so `bad_syncs ≤ 6` can fail after `incrementJumps` (see the
counterexample). -/
theorem C5_score_clamp :
    (∀ r peers, 0 ≤ (scorer_receiver r peers).bad_syncs ∧
      (scorer_receiver r peers).bad_syncs ≤ 6 ∧
      0 ≤ (scorer_receiver r peers).recent_clock_jumps) ∧
    (∀ (now : ℚ) (r r' : Receiver), incrementJumps now r = some r' →
      0 ≤ r.bad_syncs → 0 ≤ r.recent_clock_jumps →
      0 ≤ r'.bad_syncs ∧ 0 ≤ r'.recent_clock_jumps) := by
  constructor
  · intro r peers
    refine ⟨le_max_left _ _, ?_, le_max_left _ _⟩
    unfold scorer_receiver
    exact max_le (by norm_num) (min_le_left _ _)
  · intro now r r' h hbs hrcj
    unfold incrementJumps clock_reset at h
    dsimp only at h
    split_ifs at h with h0 h1 h2 <;> cases h <;>
      exact ⟨by dsimp; linarith, by dsimp; linarith⟩

/-- Claim C5, counterexample: a receiver at the clamp bound
(`bad_syncs = 6`, reachable since the scorer clamps at 6) with two recent
clock jumps: `incrementJumps` completes and leaves `bad_syncs = 6.4 > 6`,
so the clamp does not hold after every operation that modifies
`bad_syncs`. -/
theorem C5_counterexample :
    rC5.bad_syncs ≤ 6 ∧ (incrementJumps 0 rC5).isSome = true ∧
    (6 : ℚ) < (((incrementJumps 0 rC5).map Receiver.bad_syncs).getD 0) := by
  have h : incrementJumps 0 rC5 =
      some { bad_syncs := 32 / 5, sync_peers := 1, recent_pair_jumps := 1,
             recent_clock_jumps := 3, clock_reset_counter := 1 } := by
    norm_num [incrementJumps, clock_reset, rC5]
  refine ⟨by norm_num [rC5], ?_, ?_⟩ <;> rw [h] <;> norm_num

/-- Claim C5, witness for the amended theorem. -/
theorem C5_score_clamp_witness :
    (0 ≤ (scorer_receiver rC5w []).bad_syncs ∧
      (scorer_receiver rC5w []).bad_syncs ≤ 6 ∧
      0 ≤ (scorer_receiver rC5w []).recent_clock_jumps) ∧
    (0 ≤ rC5w'.bad_syncs ∧ 0 ≤ rC5w'.recent_clock_jumps) :=
  ⟨C5_score_clamp.1 rC5w [],
   C5_score_clamp.2 0 rC5w rC5w'
     (by norm_num [incrementJumps, clock_reset, rC5w, rC5w'])
     (by norm_num [rC5w]) (by norm_num [rC5w])⟩

/-- Claim C10, witness for the amended theorem. -/
theorem C10_incrementJumps_witness :
    rC10w.sync_peers ≠ 0 ∧
    (incrementJumps 0 rC10w).isSome = true ∧
    (rC10w'.recent_pair_jumps = rC10w.recent_pair_jumps + 1 ∧
      rC10w.recent_clock_jumps ≤ rC10w'.recent_clock_jumps ∧
      rC10w'.recent_clock_jumps ≤ rC10w.recent_clock_jumps + 1 ∧
      rC10w.bad_syncs ≤ rC10w'.bad_syncs ∧
      rC10w'.bad_syncs ≤ rC10w.bad_syncs + 2 / 5 ∧
      rC10w'.tracking = rC10w.tracking ∧
      rC10w'.sync_interest = rC10w.sync_interest ∧
      rC10w'.mlat_interest = rC10w.mlat_interest ∧
      rC10w'.adsb_seen = rC10w.adsb_seen) :=
  ⟨by decide,
   (C10_incrementJumps_nonzero_peers 0 rC10w (by decide)).1,
   (C10_incrementJumps_nonzero_peers 0 rC10w (by decide)).2 rC10w'
     (by norm_num [incrementJumps, clock_reset, rC10w, rC10w'])⟩

/-- Claim C8, witness. -/
theorem C8_partition_filter_witness :
    (1 < 4 ∧ 0xABCDEF < 2 ^ 24) ∧
    ((∀ pid j, in_local_partition pid 1 j = true) ∧
     ∃! i, i ∈ Finset.Icc 1 4 ∧ in_local_partition (i - 1) 4 0xABCDEF = true) :=
  ⟨by decide, C8_partition_filter 4 0xABCDEF (by decide) (by decide)⟩

/-- Claim C9, witness. -/
theorem C9_forward_results_witness :
    (((forward_results true 0 [3] fun _ => Except.ok ()).map Prod.fst = [] ↔
        (true = false ∧ (0 : ℚ) < 1)) ∧
      (¬(true = false ∧ (0 : ℚ) < 1) →
        (forward_results true 0 [3] fun _ => Except.ok ()).map Prod.fst = [3] ∧
        ∀ rcv ∈ [3], (rcv, Except.ok ()) ∈
          forward_results true 0 [3] fun _ => Except.ok ())) :=
  C9_forward_results true 0 [3] (fun _ => Except.ok ()) (by decide)

end MlatServer
